import Mathlib

/-!
Shallow embedding of the med-ch-demo chaincode (src/chaincode/access.go and the
main chaincode file), a Hyperledger-Fabric style medical-records contract.

Modelling conventions:
* Go byte slices are `List Nat`; Go strings are Lean `String`s and their
  on-ledger byte form is `strBytes` (UTF-8 code units).
* The host key/value store (`shim.ChaincodeStubInterface`) is an association
  list from key bytes to value bytes, newest binding first, plus the caller
  identity delivered by `GetCreator` and two lists of keys whose reads or
  writes report a store error (modelling a failing host store).
* Go functions returning `(T, error)` are embedded as `T × Option String`
  pairs, because the source frequently discards the error component and still
  uses the accompanying value; `Except` would lose that value.
* Fabric composite keys follow the shim convention: a 0 byte, the object type,
  a 0 separator, then each attribute followed by a 0 separator.
* `encoding/json` marshalling of record bodies is modelled by an injective
  byte encoding with an executable partial inverse (`jsonMarshalPatient` /
  `jsonUnmarshalPatient`, likewise for visits).  No claim depends on the
  concrete JSON text, only on the marshal/unmarshal relationship and on
  `Unmarshal(nil)` failing, which the model preserves.
* Certificate parsing and CommonName extraction are out of scope per the
  specification; `Identity` carries the host-delivered raw certificate bytes
  together with the extracted CommonName, and `callerCN` is total.
* Go `uint64` arithmetic wraps modulo `uint64Mod`.
-/

namespace MedCh

/-- Byte sequences (Go byte slices and ledger values). -/
abbrev Bytes := List Nat

/-- Wrap-around modulus of Go uint64 arithmetic. -/
def uint64Mod : Nat := 2 ^ 64

/-- UTF-8 encoding of one unicode code point (at most 0x10FFFF). -/
def utf8EncodeNat (n : Nat) : Bytes :=
  if n < 0x80 then [n]
  else if n < 0x800 then [0xC0 + n / 0x40, 0x80 + n % 0x40]
  else if n < 0x10000 then
    [0xE0 + n / 0x1000, 0x80 + n / 0x40 % 0x40, 0x80 + n % 0x40]
  else
    [0xF0 + n / 0x40000, 0x80 + n / 0x1000 % 0x40, 0x80 + n / 0x40 % 0x40,
      0x80 + n % 0x40]

/-- UTF-8 bytes of a string (the ledger representation of a Go string). -/
def strBytes (s : String) : Bytes :=
  (s.data.map (fun c => utf8EncodeNat c.toNat)).flatten

/-- Whether a u64 is a valid unicode code point for the Go `string(u64)`
conversion (surrogates and values above 0x10FFFF are replaced). -/
def goRuneValid (n : Nat) : Bool :=
  n < 0xD800 || (0xE000 ≤ n && n ≤ 0x10FFFF)

/-- The Go conversion `string(u64)` as bytes: the UTF-8 encoding of the code
point, with U+FFFD substituted for invalid values.  This is what the source
does in `setPatient`, `getPatient`, `setVisit`, `getVisit` and `patientVisit`
when it writes `string(id)` for a `uint64` id. -/
def goStringOfUInt64 (n : Nat) : Bytes :=
  utf8EncodeNat (if goRuneValid n then n else 0xFFFD)

/-- `binary.LittleEndian.PutUint64`: the 8-byte little-endian form. -/
def toLE8 (n : Nat) : Bytes :=
  [n % 256, n / 256 % 256, n / 256 ^ 2 % 256, n / 256 ^ 3 % 256,
    n / 256 ^ 4 % 256, n / 256 ^ 5 % 256, n / 256 ^ 6 % 256, n / 256 ^ 7 % 256]

/-- `binary.LittleEndian.Uint64`: reads the first 8 bytes.  (Go panics on a
shorter slice; the system only ever reads counters it stored as 8 bytes, and
the model totalizes the short case with 0.) -/
def fromLE8 : Bytes → Nat
  | b0 :: b1 :: b2 :: b3 :: b4 :: b5 :: b6 :: b7 :: _ =>
      b0 + 256 * b1 + 256 ^ 2 * b2 + 256 ^ 3 * b3 + 256 ^ 4 * b4 +
        256 ^ 5 * b5 + 256 ^ 6 * b6 + 256 ^ 7 * b7
  | _ => 0

/-! Database key prefixes, verbatim from the source. -/

/-- Prefix for metadata (owner record; also misused by `checkAccess`). -/
def MetadataKey : String := "__metadata_"

/-- Prefix for patient information records. -/
def PatientInfoKey : String := "__patient_record_"

/-- Scalar key for the patient counter. -/
def PatientInfoCountKey : String := "__patient_count_"

/-- Prefix for medical visit records. -/
def MedVisitKey : String := "__visit_record_"

/-- Prefix for per-patient visit counters. -/
def VisitInfoCountKey : String := "__visit_count_"

/-- Prefix for doctor public key records (access.go). -/
def DoctorPublicKey : String := "__access_public_key_"

/-- Prefix for doctor access records (access.go). -/
def DoctorAccessKey : String := "__access_doctor_"

/-- `stub.CreateCompositeKey` of the Fabric shim: a 0 byte, the object type,
then each attribute, all separated by 0 bytes. -/
def createCompositeKey (objectType : String) (attrs : List Bytes) : Bytes :=
  [0] ++ strBytes objectType ++ [0] ++ (attrs.map (fun a => a ++ [0])).flatten

/-- Key of the owner metadata record (`getOwnerKey`). -/
def ownerKey : Bytes := createCompositeKey MetadataKey [strBytes "Owner"]

/-- Key pinning a doctor name to certificate bytes (access.go). -/
def doctorKey (doctor : String) : Bytes :=
  createCompositeKey DoctorPublicKey [strBytes doctor]

/-- Key written by `setAccess`: doctor name and decimal patient id
(`fmt.Sprint(patientId)`). -/
def accessKey (doctor : String) (patientId : Nat) : Bytes :=
  createCompositeKey DoctorAccessKey [strBytes doctor, strBytes (toString patientId)]

/-- Key read by `checkAccess` (access.go line 89): the METADATA prefix with the
literal segment "doctor" — not the `DoctorAccessKey` prefix with the doctor
name that `setAccess` writes. -/
def metaDoctorKey (patientId : Nat) : Bytes :=
  createCompositeKey MetadataKey [strBytes "doctor", strBytes (toString patientId)]

/-- Key of a patient record: `CreateCompositeKey(PatientInfoKey, [string(id)])`. -/
def patientKey (id : Nat) : Bytes :=
  createCompositeKey PatientInfoKey [goStringOfUInt64 id]

/-- The patient counter key (used directly, no composite). -/
def patientCountKey : Bytes := strBytes PatientInfoCountKey

/-- Key of a visit record:
`CreateCompositeKey(MedVisitKey, [string(patientId), string(id)])`. -/
def visitKey (patientId id : Nat) : Bytes :=
  createCompositeKey MedVisitKey [goStringOfUInt64 patientId, goStringOfUInt64 id]

/-- Per-patient visit counter key:
`CreateCompositeKey(VisitInfoCountKey, [string(patientId)])`. -/
def visitCountKey (patientId : Nat) : Bytes :=
  createCompositeKey VisitInfoCountKey [goStringOfUInt64 patientId]

/-! Record bodies and parameter shapes, verbatim from the source structs. -/

/-- Patient information record. -/
structure PatientInfo where
  PatientID : Nat
  FirstName : String
  LastName : String
  Gender : Nat
  BirthDate : Nat
  Phone : String
deriving DecidableEq, Repr

/-- Medical visit record. -/
structure MedicalVisit where
  VisitID : Nat
  PatientID : Nat
  Doctor : String
  Complaint : String
  Diagnosis : String
  Perscription : String
deriving DecidableEq, Repr

/-- Parameters of RegisterPatient. -/
structure PatientInfoParams where
  FirstName : String
  LastName : String
  Gender : Nat
  BirthDate : Nat
  Phone : String
deriving DecidableEq, Repr

/-- Parameters of GetPatient and GetMedicalRecords. -/
structure PatientIDParams where
  PatientID : Nat
  Doctor : String
deriving DecidableEq, Repr

/-- Parameters of PatientVisit. -/
structure VisitInfoParams where
  PatientID : Nat
  Doctor : String
  Complaint : String
deriving DecidableEq, Repr

/-- Parameters of SetDiagnosis. -/
structure DiagnosisParams where
  VisitID : Nat
  PatientID : Nat
  Diagnosis : String
deriving DecidableEq, Repr

/-- Parameters of SetPerscription. -/
structure PerscriptionParams where
  VisitID : Nat
  PatientID : Nat
  Perscription : String
deriving DecidableEq, Repr

/-- Parameters of RegisterDoctor. -/
structure DoctorParams where
  Doctor : String
deriving DecidableEq, Repr

/-- Parameters of SetDoctorAccess. -/
structure SetDoctorAccessParams where
  PatientID : Nat
  Doctor : String
  Access : Nat
deriving DecidableEq, Repr

/-- The combined reply of GetMedicalRecords. -/
structure MedicalRecords where
  Patient : PatientInfo
  History : List MedicalVisit
deriving DecidableEq, Repr

/-- The Go zero value of `PatientInfo` (`var result PatientInfo`). -/
def zeroPatient : PatientInfo := ⟨0, "", "", 0, 0, ""⟩

/-- The Go zero value of `MedicalVisit` (`var result MedicalVisit`). -/
def zeroVisit : MedicalVisit := ⟨0, 0, "", "", "", ""⟩

/-! Model of `encoding/json` marshalling of record bodies: an injective tagged
byte encoding with an executable partial inverse.  A nat field is 8 bytes LE;
a string field is an 8-byte LE length followed by the code points of its
characters.  No claim depends on the concrete JSON text. -/

/-- Encoded form of a u64 record field. -/
def encNat (n : Nat) : Bytes := toLE8 n

/-- Encoded form of a string record field. -/
def encStr (s : String) : Bytes := toLE8 s.length ++ s.data.map Char.toNat

/-- Decode an encoded u64 field. -/
def decNat (bs : Bytes) : Option (Nat × Bytes) :=
  if 8 ≤ bs.length then some (fromLE8 bs, bs.drop 8) else none

/-- Decode an encoded string field. -/
def decStr (bs : Bytes) : Option (String × Bytes) :=
  match decNat bs with
  | none => none
  | some (n, rest) =>
      if n ≤ rest.length then
        some (String.mk ((rest.take n).map Char.ofNat), rest.drop n)
      else none

/-- Model of `json.Marshal` on a `PatientInfo` body. -/
def jsonMarshalPatient (p : PatientInfo) : Bytes :=
  [1] ++ encNat p.PatientID ++ encStr p.FirstName ++ encStr p.LastName ++
    encNat p.Gender ++ encNat p.BirthDate ++ encStr p.Phone

/-- Executable inverse of `jsonMarshalPatient`. -/
def decodePatient (bs : Bytes) : Option PatientInfo := do
  let rest ← match bs with
    | 1 :: r => some r
    | _ => none
  let (pid, r1) ← decNat rest
  let (fn, r2) ← decStr r1
  let (ln, r3) ← decStr r2
  let (g, r4) ← decNat r3
  let (bd, r5) ← decNat r4
  let (ph, r6) ← decStr r5
  if r6 = [] then some ⟨pid, fn, ln, g, bd, ph⟩ else none

/-- Model of `json.Unmarshal` into a `PatientInfo`: fails on absent (nil) data
and on bytes that are not a marshalled patient, leaving the zero value. -/
def jsonUnmarshalPatient : Option Bytes → PatientInfo × Option String
  | none => (zeroPatient, some "unexpected end of JSON input")
  | some bs =>
      match decodePatient bs with
      | some p => (p, none)
      | none => (zeroPatient, some "json unmarshal error")

/-- Model of `json.Marshal` on a `MedicalVisit` body. -/
def jsonMarshalVisit (v : MedicalVisit) : Bytes :=
  [2] ++ encNat v.VisitID ++ encNat v.PatientID ++ encStr v.Doctor ++
    encStr v.Complaint ++ encStr v.Diagnosis ++ encStr v.Perscription

/-- Executable inverse of `jsonMarshalVisit`. -/
def decodeVisit (bs : Bytes) : Option MedicalVisit := do
  let rest ← match bs with
    | 2 :: r => some r
    | _ => none
  let (vid, r1) ← decNat rest
  let (pid, r2) ← decNat r1
  let (doc, r3) ← decStr r2
  let (com, r4) ← decStr r3
  let (dia, r5) ← decStr r4
  let (per, r6) ← decStr r5
  if r6 = [] then some ⟨vid, pid, doc, com, dia, per⟩ else none

/-- Model of `json.Unmarshal` into a `MedicalVisit`: fails on absent (nil)
data and on bytes that are not a marshalled visit, leaving the zero value. -/
def jsonUnmarshalVisit : Option Bytes → MedicalVisit × Option String
  | none => (zeroVisit, some "unexpected end of JSON input")
  | some bs =>
      match decodeVisit bs with
      | some v => (v, none)
      | none => (zeroVisit, some "json unmarshal error")

/-- Model of `json.Marshal` on the `MedicalRecords` reply. -/
def jsonMarshalRecords (r : MedicalRecords) : Bytes :=
  [3] ++ jsonMarshalPatient r.Patient ++ toLE8 r.History.length ++
    (r.History.map jsonMarshalVisit).flatten

/-! The host stub. -/

/-- The creator identity of an invocation, as delivered by `stub.GetCreator`:
the raw certificate bytes of the envelope (`serializedID.IdBytes`) and the
Subject CommonName that the out-of-scope identity collaborator extracts from
them (`cnFromX509`). -/
structure Identity where
  rawCert : Bytes
  cn : String
deriving DecidableEq, Repr

/-- Look up a key in the ledger association list (newest binding first). -/
def lookupKV : List (Bytes × Bytes) → Bytes → Option Bytes
  | [], _ => none
  | (k, v) :: rest, key => if k = key then some v else lookupKV rest key

/-- The host stub: ledger state, invocation creator, and the sets of keys on
which the host store reports read or write errors. -/
structure Stub where
  state : List (Bytes × Bytes)
  creator : Identity
  failGet : List Bytes
  failPut : List Bytes
deriving DecidableEq, Repr

/-- `stub.GetState`: `(nil, err)` on a store read error, otherwise the stored
bytes (or nil when absent) with no error. -/
def Stub.getState (st : Stub) (key : Bytes) : Option Bytes × Option String :=
  if key ∈ st.failGet then (none, some "GET_STATE_ERROR")
  else (lookupKV st.state key, none)

/-- `stub.PutState`: on a store write error the ledger is unchanged and an
error is reported, otherwise the new binding is recorded. -/
def Stub.putState (st : Stub) (key val : Bytes) : Stub × Option String :=
  if key ∈ st.failPut then (st, some "PUT_STATE_ERROR")
  else (⟨(key, val) :: st.state, st.creator, st.failGet, st.failPut⟩, none)

/-- `callerCN`: the CommonName extracted from the creator envelope.  The
unmarshalling and certificate parsing are the black-box identity collaborator
of the specification and are modelled as total. -/
def callerCN (st : Stub) : String := st.creator.cn

/-- The invocation reply (`peer.Response`): `shim.Success` carries an optional
payload, `shim.Error` a message string. -/
inductive Response where
  | success (payload : Option Bytes)
  | error (msg : String)
deriving DecidableEq, Repr

namespace MedicalRecordChaincode

/-- `getValue` (chaincode private helper): read a counter; 0 when absent, and
`(0, err)` on a store read error. -/
def getValue (st : Stub) (key : Bytes) : Nat × Option String :=
  match st.getState key with
  | (_, some e) => (0, some e)
  | (none, none) => (0, none)
  | (some data, none) => (fromLE8 data, none)

/-- `setValue`: store a counter as 8 little-endian bytes. -/
def setValue (st : Stub) (key : Bytes) (value : Nat) : Stub × Option String :=
  st.putState key (toLE8 value)

/-- `setPatient`: marshal and store a patient record under
`CreateCompositeKey(PatientInfoKey, [string(id)])`. -/
def setPatient (st : Stub) (patient : PatientInfo) : Stub × Option String :=
  st.putState (patientKey patient.PatientID) (jsonMarshalPatient patient)

/-- `getPatient`: fetch and unmarshal a patient record; the zero record with
an error when the read fails or the data is absent. -/
def getPatient (st : Stub) (id : Nat) : PatientInfo × Option String :=
  match st.getState (patientKey id) with
  | (_, some e) => (zeroPatient, some e)
  | (data, none) => jsonUnmarshalPatient data

/-- `setVisit`: marshal and store a visit record under
`CreateCompositeKey(MedVisitKey, [string(patientId), string(visitId)])`. -/
def setVisit (st : Stub) (visit : MedicalVisit) : Stub × Option String :=
  st.putState (visitKey visit.PatientID visit.VisitID) (jsonMarshalVisit visit)

/-- `getVisit`: fetch and unmarshal a visit record; the zero record with an
error when the read fails or the data is absent. -/
def getVisit (st : Stub) (patientId id : Nat) : MedicalVisit × Option String :=
  match st.getState (visitKey patientId id) with
  | (_, some e) => (zeroVisit, some e)
  | (data, none) => jsonUnmarshalVisit data

end MedicalRecordChaincode

/-- `getOwnerCN`: read the owner record; the string conversion of the data is
kept as raw bytes because every handler discards the owner value. -/
def getOwnerCN (st : Stub) : Option Bytes × Option String :=
  st.getState ownerKey

/-- `getCallParams`: argument-count check and JSON decode of the single
argument (modelled as the given pre-parsed `Except`, with the Go zero value of
the parameter struct surviving a failed parse), caller CommonName extraction,
and the owner lookup.  Returns (params, caller, owner bytes, error). -/
def getCallParams {P : Type} (st : Stub) (params : Except String P) (pzero : P) :
    P × String × Option Bytes × Option String :=
  match params with
  | .error _ => (pzero, "", none, some "Error parsing transfer json")
  | .ok p =>
      match getOwnerCN st with
      | (_, some _) => (p, "", none, some "Error getting owner data")
      | (ownerData, none) => (p, callerCN st, ownerData, none)

/-! The AccessControl component (src/chaincode/access.go). -/

namespace AccessControl

/-- `registerDoctor`: bind a doctor name to certificate bytes unless a binding
already exists.  The `PutState` error is discarded by the source. -/
def registerDoctor (st : Stub) (doctor : String) (doctorCert : Bytes) :
    (Bool × Option String) × Stub :=
  let key := doctorKey doctor
  match st.getState key with
  | (_, some e) => ((false, some e), st)
  | (some _, none) => ((false, some "Already registered"), st)
  | (none, none) => ((true, none), (st.putState key doctorCert).1)

/-- `setAccess`: read the current level at
`CreateCompositeKey(DoctorAccessKey, [doctor, fmt.Sprint(patientId)])`; if the
read failed or the level is unchanged, return false, otherwise write the new
level (the `setValue` error is discarded) and return true. -/
def setAccess (st : Stub) (patientId : Nat) (doctor : String) (accType : Nat) :
    (Bool × Option String) × Stub :=
  let akey := accessKey doctor patientId
  let cur := MedicalRecordChaincode.getValue st akey
  if cur.2.isSome || cur.1 = accType then ((false, cur.2), st)
  else ((true, none), (MedicalRecordChaincode.setValue st akey accType).1)

/-- `checkAccess`: fetch the pinned certificate for the doctor name, reject an
unregistered doctor or mismatching caller bytes, then read the access level —
from `CreateCompositeKey(MetadataKey, ["doctor", fmt.Sprint(patientId)])`
(access.go line 89), which is not the key `setAccess` writes. -/
def checkAccess (st : Stub) (patientId : Nat) (doctor : String) (caller : Bytes) :
    Nat × Option String :=
  match st.getState (doctorKey doctor) with
  | (_, some e) => (0, some e)
  | (none, none) => (0, some "Doctor not registered")
  | (some data, none) =>
      if data ≠ caller then (0, some "Invalid caller certificate")
      else MedicalRecordChaincode.getValue st (metaDoctorKey patientId)

end AccessControl

/-! The transaction handlers (main chaincode file).  Each handler takes the
pre-parsed JSON argument as an `Except`. -/

namespace MedicalRecordChaincode

/-- `Init`: record the caller CommonName as the owner. -/
def Init (st : Stub) : Response × Stub :=
  let caller := callerCN st
  let r := st.putState ownerKey (strBytes caller)
  match r.2 with
  | none => (.success none, r.1)
  | some _ => (.error "Error saving data", st)

/-- `registerPatient`: allocate the next patient id, store the record and the
incremented counter (counter-read and both write errors are discarded), and
reply with the marshalled record. -/
def registerPatient (st : Stub) (params : Except String PatientInfoParams) :
    Response × Stub :=
  match getCallParams st params ⟨"", "", 0, 0, ""⟩ with
  | (_, _, _, some e) => (.error e, st)
  | (p, _, _, none) =>
      let count := (getValue st patientCountKey).1
      let newPatient : PatientInfo :=
        ⟨(count + 1) % uint64Mod, p.FirstName, p.LastName, p.Gender,
          p.BirthDate, p.Phone⟩
      let st2 := (setPatient st newPatient).1
      let st3 := (setValue st2 patientCountKey ((count + 1) % uint64Mod)).1
      (.success (some (jsonMarshalPatient newPatient)), st3)

/-- `setDocAccess`: the source overwrites the `getCallParams` error without
checking it, so a parse failure silently proceeds with the zero parameters. -/
def setDocAccess (st : Stub) (params : Except String SetDoctorAccessParams) :
    Response × Stub :=
  let p := (getCallParams st params (⟨0, "", 0⟩ : SetDoctorAccessParams)).1
  let r := AccessControl.setAccess st p.PatientID p.Doctor p.Access
  match r.1.2 with
  | some e => (.error e, r.2)
  | none => (.success none, r.2)

/-- `registerDoctor` handler: registers `params.Doctor` pinned to the bytes of
the caller CommonName (`[]byte(caller)`).  As in `setDocAccess`, the
`getCallParams` error is overwritten without being checked. -/
def registerDoctor (st : Stub) (params : Except String DoctorParams) :
    Response × Stub :=
  let g := getCallParams st params (⟨""⟩ : DoctorParams)
  let r := AccessControl.registerDoctor st g.1.Doctor (strBytes g.2.1)
  match r.1.2 with
  | some e => (.error e, r.2)
  | none => (.success none, r.2)

/-- `updatePatient`: overwrite an existing patient record. -/
def updatePatient (st : Stub) (params : Except String PatientInfo) :
    Response × Stub :=
  match getCallParams st params zeroPatient with
  | (_, _, _, some e) => (.error e, st)
  | (p, _, _, none) =>
      match (getPatient st p.PatientID).2 with
      | some e => (.error e, st)
      | none => (.success none, (setPatient st p).1)

/-- `getPatientById`: access check (error discarded, only the level is
inspected), then fetch and return the patient record. -/
def getPatientById (st : Stub) (params : Except String PatientIDParams) :
    Response × Stub :=
  match getCallParams st params ⟨0, ""⟩ with
  | (_, _, _, some e) => (.error e, st)
  | (p, caller, _, none) =>
      let access := (AccessControl.checkAccess st p.PatientID p.Doctor (strBytes caller)).1
      if access = 0 then
        (.error "Caller does not have access to patient info.", st)
      else
        match getPatient st p.PatientID with
        | (_, some e) => (.error e, st)
        | (patient, none) =>
            (.success (some (jsonMarshalPatient patient)), st)

/-- `patientVisit`: allocate the next per-patient visit id, store the visit
and the incremented counter (errors discarded), reply with the record. -/
def patientVisit (st : Stub) (params : Except String VisitInfoParams) :
    Response × Stub :=
  match getCallParams st params ⟨0, "", ""⟩ with
  | (_, _, _, some e) => (.error e, st)
  | (p, _, _, none) =>
      let countkey := visitCountKey p.PatientID
      let count := (getValue st countkey).1
      let newVisit : MedicalVisit :=
        ⟨(count + 1) % uint64Mod, p.PatientID, p.Doctor, p.Complaint, "", ""⟩
      let st2 := (setVisit st newVisit).1
      let st3 := (setValue st2 countkey ((count + 1) % uint64Mod)).1
      (.success (some (jsonMarshalVisit newVisit)), st3)

/-- `setDiagnosis`: fetch the visit (fetch error discarded, the zero visit
survives), access check against the visit owner doctor requiring level 2,
then patch and store the diagnosis. -/
def setDiagnosis (st : Stub) (params : Except String DiagnosisParams) :
    Response × Stub :=
  match getCallParams st params ⟨0, 0, ""⟩ with
  | (_, _, _, some e) => (.error e, st)
  | (p, caller, _, none) =>
      let visit := (getVisit st p.PatientID p.VisitID).1
      let access := (AccessControl.checkAccess st p.PatientID visit.Doctor (strBytes caller)).1
      if access ≠ 2 then
        (.error "Caller does not have access to patient data.", st)
      else
        let visit2 : MedicalVisit :=
          ⟨visit.VisitID, visit.PatientID, visit.Doctor,
            visit.Complaint, p.Diagnosis, visit.Perscription⟩
        (.success (some (jsonMarshalVisit visit2)), (setVisit st visit2).1)

/-- `setPerscription`: as `setDiagnosis`, patching the prescription field. -/
def setPerscription (st : Stub) (params : Except String PerscriptionParams) :
    Response × Stub :=
  match getCallParams st params ⟨0, 0, ""⟩ with
  | (_, _, _, some e) => (.error e, st)
  | (p, caller, _, none) =>
      let visit := (getVisit st p.PatientID p.VisitID).1
      let access := (AccessControl.checkAccess st p.PatientID visit.Doctor (strBytes caller)).1
      if access ≠ 2 then
        (.error "Caller does not have access to patient data.", st)
      else
        let visit2 : MedicalVisit :=
          ⟨visit.VisitID, visit.PatientID, visit.Doctor,
            visit.Complaint, visit.Diagnosis, p.Perscription⟩
        (.success (some (jsonMarshalVisit visit2)), (setVisit st visit2).1)

/-- `getMedicalRecords`: access check requiring level 2, then the patient
record together with the visits for ids in [0, count) — the source loop
`for visitID := uint64(0); visitID < count; visitID++`. -/
def getMedicalRecords (st : Stub) (params : Except String PatientIDParams) :
    Response × Stub :=
  match getCallParams st params ⟨0, ""⟩ with
  | (_, _, _, some e) => (.error e, st)
  | (p, caller, _, none) =>
      let access := (AccessControl.checkAccess st p.PatientID p.Doctor (strBytes caller)).1
      if access ≠ 2 then
        (.error "Caller does not have access to patient info.", st)
      else
        let count := (getValue st (visitCountKey p.PatientID)).1
        match getPatient st p.PatientID with
        | (_, some e) => (.error e, st)
        | (patient, none) =>
            let history :=
              (List.range count).map
                (fun visitID => (getVisit st p.PatientID visitID).1)
            (.success (some (jsonMarshalRecords ⟨patient, history⟩)), st)

end MedicalRecordChaincode

/-! Invocation sequences: one `OpCall` is one transaction — the creator
identity of the invocation, the store failure configuration of the host during
it, and the dispatched handler with its pre-parsed argument. -/

/-- A dispatched transaction with its parsed argument. -/
inductive Op where
  | initOp
  | registerPatientOp (p : Except String PatientInfoParams)
  | updatePatientOp (p : Except String PatientInfo)
  | getPatientByIdOp (p : Except String PatientIDParams)
  | patientVisitOp (p : Except String VisitInfoParams)
  | setDiagnosisOp (p : Except String DiagnosisParams)
  | setPerscriptionOp (p : Except String PerscriptionParams)
  | getMedicalRecordsOp (p : Except String PatientIDParams)
  | registerDoctorOp (p : Except String DoctorParams)
  | setDocAccessOp (p : Except String SetDoctorAccessParams)

/-- One invocation: creator identity, host failure configuration, operation. -/
structure OpCall where
  ident : Identity
  failGet : List Bytes
  failPut : List Bytes
  op : Op

/-- The ledger alone (the part of the stub that persists across
invocations). -/
abbrev World := List (Bytes × Bytes)

/-- The stub a given invocation runs on. -/
def mkStub (w : World) (c : OpCall) : Stub := ⟨w, c.ident, c.failGet, c.failPut⟩

/-- Dispatch one invocation, returning the reply and the post stub. -/
def stepResp (w : World) (c : OpCall) : Response × Stub :=
  match c.op with
  | .initOp => MedicalRecordChaincode.Init (mkStub w c)
  | .registerPatientOp p => MedicalRecordChaincode.registerPatient (mkStub w c) p
  | .updatePatientOp p => MedicalRecordChaincode.updatePatient (mkStub w c) p
  | .getPatientByIdOp p => MedicalRecordChaincode.getPatientById (mkStub w c) p
  | .patientVisitOp p => MedicalRecordChaincode.patientVisit (mkStub w c) p
  | .setDiagnosisOp p => MedicalRecordChaincode.setDiagnosis (mkStub w c) p
  | .setPerscriptionOp p => MedicalRecordChaincode.setPerscription (mkStub w c) p
  | .getMedicalRecordsOp p => MedicalRecordChaincode.getMedicalRecords (mkStub w c) p
  | .registerDoctorOp p => MedicalRecordChaincode.registerDoctor (mkStub w c) p
  | .setDocAccessOp p => MedicalRecordChaincode.setDocAccess (mkStub w c) p

/-- The ledger after one invocation. -/
def step (w : World) (c : OpCall) : World := (stepResp w c).2.state

/-- The ledger after a sequence of invocations. -/
def run (w : World) : List OpCall → World
  | [] => w
  | c :: cs => run (step w c) cs

/-! Basic lemmas about the byte codec and the ledger. -/

theorem fromLE8_toLE8 (n : Nat) : fromLE8 (toLE8 n) = n % 2 ^ 64 := by
  simp [fromLE8, toLE8]
  omega

theorem lookupKV_cons_ne {k2 k v} {w : World} (h : k2 ≠ k) :
    lookupKV ((k2, v) :: w) k = lookupKV w k := by
  simp [lookupKV, h]

theorem lookupKV_cons_self {k v} {w : World} :
    lookupKV ((k, v) :: w) k = some v := by
  simp [lookupKV]

theorem ne_of_getElem? {l l2 : Bytes} {i a b : Nat} (h : l[i]? = some a)
    (h2 : l2[i]? = some b) (hab : a ≠ b) : l ≠ l2 := by
  intro he
  rw [he, h2] at h
  exact hab (Option.some.inj h).symm

/-! Byte probes distinguishing the key families: every composite key starts
with a 0 byte followed by its object type string, so keys of different
families differ at a byte inside the shorter object type, and the scalar
counter keys start with an underscore instead of the 0 byte. -/

theorem getElem3_doctorKey (d : String) : (doctorKey d)[3]? = some 97 := rfl

theorem getElem3_patientKey (n : Nat) : (patientKey n)[3]? = some 112 := rfl

theorem getElem3_visitKey (p v : Nat) : (visitKey p v)[3]? = some 118 := rfl

theorem getElem3_visitCountKey (p : Nat) : (visitCountKey p)[3]? = some 118 := rfl

theorem getElem3_ownerKey : (ownerKey)[3]? = some 109 := rfl

theorem getElem3_metaDoctorKey (p : Nat) : (metaDoctorKey p)[3]? = some 109 := rfl

theorem getElem10_doctorKey (d : String) : (doctorKey d)[10]? = some 112 := rfl

theorem getElem10_accessKey (d : String) (p : Nat) : (accessKey d p)[10]? = some 100 := rfl

theorem getElem0_doctorKey (d : String) : (doctorKey d)[0]? = some 0 := rfl

theorem getElem0_patientKey (n : Nat) : (patientKey n)[0]? = some 0 := rfl

theorem getElem0_patientCountKey : (patientCountKey)[0]? = some 95 := rfl

theorem ownerKey_ne_doctorKey (d : String) : ownerKey ≠ doctorKey d :=
  ne_of_getElem? getElem3_ownerKey (getElem3_doctorKey d) (by decide)

theorem patientKey_ne_doctorKey (n : Nat) (d : String) : patientKey n ≠ doctorKey d :=
  ne_of_getElem? (getElem3_patientKey n) (getElem3_doctorKey d) (by decide)

theorem patientCountKey_ne_doctorKey (d : String) : patientCountKey ≠ doctorKey d :=
  ne_of_getElem? getElem0_patientCountKey (getElem0_doctorKey d) (by decide)

theorem visitKey_ne_doctorKey (p v : Nat) (d : String) : visitKey p v ≠ doctorKey d :=
  ne_of_getElem? (getElem3_visitKey p v) (getElem3_doctorKey d) (by decide)

theorem visitCountKey_ne_doctorKey (p : Nat) (d : String) : visitCountKey p ≠ doctorKey d :=
  ne_of_getElem? (getElem3_visitCountKey p) (getElem3_doctorKey d) (by decide)

theorem accessKey_ne_doctorKey (d2 : String) (p : Nat) (d : String) :
    accessKey d2 p ≠ doctorKey d :=
  ne_of_getElem? (getElem10_accessKey d2 p) (getElem10_doctorKey d) (by decide)

theorem patientCountKey_ne_patientKey (n : Nat) : patientCountKey ≠ patientKey n :=
  ne_of_getElem? getElem0_patientCountKey (getElem0_patientKey n) (by decide)

theorem putState_lookup_ne (st : Stub) {key k : Bytes} (v : Bytes) (h : key ≠ k) :
    lookupKV (st.putState key v).1.state k = lookupKV st.state k := by
  unfold Stub.putState
  split
  · rfl
  · exact lookupKV_cons_ne h

/-! No handler ever overwrites a doctor public-key record: every write of the
records engine targets a key family distinct from `DoctorPublicKey`, and the
only `DoctorPublicKey` write, in `registerDoctor`, is guarded by the absence
of an existing binding. -/

theorem Init_lookup_doctorKey (st : Stub) (d : String) :
    lookupKV (MedicalRecordChaincode.Init st).2.state (doctorKey d)
      = lookupKV st.state (doctorKey d) := by
  unfold MedicalRecordChaincode.Init
  dsimp only
  split
  · exact putState_lookup_ne st _ (ownerKey_ne_doctorKey d)
  · rfl

theorem registerPatient_lookup_doctorKey (st : Stub)
    (p : Except String PatientInfoParams) (d : String) :
    lookupKV (MedicalRecordChaincode.registerPatient st p).2.state (doctorKey d)
      = lookupKV st.state (doctorKey d) := by
  unfold MedicalRecordChaincode.registerPatient
  split
  · rfl
  · simp only [MedicalRecordChaincode.setValue, MedicalRecordChaincode.setPatient]
    rw [putState_lookup_ne _ _ (patientCountKey_ne_doctorKey d),
      putState_lookup_ne _ _ (patientKey_ne_doctorKey _ d)]

theorem updatePatient_lookup_doctorKey (st : Stub)
    (p : Except String PatientInfo) (d : String) :
    lookupKV (MedicalRecordChaincode.updatePatient st p).2.state (doctorKey d)
      = lookupKV st.state (doctorKey d) := by
  unfold MedicalRecordChaincode.updatePatient
  split
  · rfl
  · split
    · rfl
    · simp only [MedicalRecordChaincode.setPatient]
      rw [putState_lookup_ne _ _ (patientKey_ne_doctorKey _ d)]

theorem getPatientById_lookup_doctorKey (st : Stub)
    (p : Except String PatientIDParams) (d : String) :
    lookupKV (MedicalRecordChaincode.getPatientById st p).2.state (doctorKey d)
      = lookupKV st.state (doctorKey d) := by
  unfold MedicalRecordChaincode.getPatientById
  split
  · rfl
  · dsimp only
    split
    · rfl
    · split
      · rfl
      · rfl

theorem patientVisit_lookup_doctorKey (st : Stub)
    (p : Except String VisitInfoParams) (d : String) :
    lookupKV (MedicalRecordChaincode.patientVisit st p).2.state (doctorKey d)
      = lookupKV st.state (doctorKey d) := by
  unfold MedicalRecordChaincode.patientVisit
  split
  · rfl
  · simp only [MedicalRecordChaincode.setValue, MedicalRecordChaincode.setVisit]
    rw [putState_lookup_ne _ _ (visitCountKey_ne_doctorKey _ d),
      putState_lookup_ne _ _ (visitKey_ne_doctorKey _ _ d)]

theorem setDiagnosis_lookup_doctorKey (st : Stub)
    (p : Except String DiagnosisParams) (d : String) :
    lookupKV (MedicalRecordChaincode.setDiagnosis st p).2.state (doctorKey d)
      = lookupKV st.state (doctorKey d) := by
  unfold MedicalRecordChaincode.setDiagnosis
  split
  · rfl
  · dsimp only
    split
    · rfl
    · simp only [MedicalRecordChaincode.setVisit]
      rw [putState_lookup_ne _ _ (visitKey_ne_doctorKey _ _ d)]

theorem setPerscription_lookup_doctorKey (st : Stub)
    (p : Except String PerscriptionParams) (d : String) :
    lookupKV (MedicalRecordChaincode.setPerscription st p).2.state (doctorKey d)
      = lookupKV st.state (doctorKey d) := by
  unfold MedicalRecordChaincode.setPerscription
  split
  · rfl
  · dsimp only
    split
    · rfl
    · simp only [MedicalRecordChaincode.setVisit]
      rw [putState_lookup_ne _ _ (visitKey_ne_doctorKey _ _ d)]

theorem getMedicalRecords_lookup_doctorKey (st : Stub)
    (p : Except String PatientIDParams) (d : String) :
    lookupKV (MedicalRecordChaincode.getMedicalRecords st p).2.state (doctorKey d)
      = lookupKV st.state (doctorKey d) := by
  unfold MedicalRecordChaincode.getMedicalRecords
  split
  · rfl
  · dsimp only
    split
    · rfl
    · split
      · rfl
      · rfl

theorem setDocAccess_lookup_doctorKey (st : Stub)
    (p : Except String SetDoctorAccessParams) (d : String) :
    lookupKV (MedicalRecordChaincode.setDocAccess st p).2.state (doctorKey d)
      = lookupKV st.state (doctorKey d) := by
  unfold MedicalRecordChaincode.setDocAccess AccessControl.setAccess
  dsimp only
  split
  · split
    · rfl
    · simp only [MedicalRecordChaincode.setValue]
      rw [putState_lookup_ne _ _ (accessKey_ne_doctorKey _ _ d)]
  · split
    · rfl
    · simp only [MedicalRecordChaincode.setValue]
      rw [putState_lookup_ne _ _ (accessKey_ne_doctorKey _ _ d)]

theorem registerDoctor_lookup_doctorKey (st : Stub)
    (p : Except String DoctorParams) {d : String} {bs : Bytes}
    (h : lookupKV st.state (doctorKey d) = some bs) :
    lookupKV (MedicalRecordChaincode.registerDoctor st p).2.state (doctorKey d)
      = some bs := by
  unfold MedicalRecordChaincode.registerDoctor AccessControl.registerDoctor
  dsimp only
  by_cases hk : doctorKey (getCallParams st p ⟨""⟩).1.Doctor = doctorKey d
  · rw [hk]
    unfold Stub.getState
    by_cases hf : doctorKey d ∈ st.failGet
    · simp [hf, h]
    · simp [hf, h]
  · unfold Stub.getState
    by_cases hf : doctorKey (getCallParams st p ⟨""⟩).1.Doctor ∈ st.failGet
    · simp [hf, h]
    · cases hl : lookupKV st.state (doctorKey (getCallParams st p ⟨""⟩).1.Doctor) with
      | none => simp [hf, hl, putState_lookup_ne _ _ hk, h]
      | some v => simp [hf, hl, h]

theorem step_lookup_doctorKey (w : World) (c : OpCall) {d : String} {bs : Bytes}
    (h : lookupKV w (doctorKey d) = some bs) :
    lookupKV (step w c) (doctorKey d) = some bs := by
  cases hop : c.op with
  | initOp => rw [step, stepResp, hop, Init_lookup_doctorKey]; exact h
  | registerPatientOp p => rw [step, stepResp, hop, registerPatient_lookup_doctorKey]; exact h
  | updatePatientOp p => rw [step, stepResp, hop, updatePatient_lookup_doctorKey]; exact h
  | getPatientByIdOp p => rw [step, stepResp, hop, getPatientById_lookup_doctorKey]; exact h
  | patientVisitOp p => rw [step, stepResp, hop, patientVisit_lookup_doctorKey]; exact h
  | setDiagnosisOp p => rw [step, stepResp, hop, setDiagnosis_lookup_doctorKey]; exact h
  | setPerscriptionOp p => rw [step, stepResp, hop, setPerscription_lookup_doctorKey]; exact h
  | getMedicalRecordsOp p => rw [step, stepResp, hop, getMedicalRecords_lookup_doctorKey]; exact h
  | registerDoctorOp p => rw [step, stepResp, hop]; exact registerDoctor_lookup_doctorKey _ _ h
  | setDocAccessOp p => rw [step, stepResp, hop, setDocAccess_lookup_doctorKey]; exact h

theorem run_lookup_doctorKey (ops : List OpCall) {w : World} {d : String} {bs : Bytes}
    (h : lookupKV w (doctorKey d) = some bs) :
    lookupKV (run w ops) (doctorKey d) = some bs := by
  induction ops generalizing w with
  | nil => exact h
  | cons c cs ih => exact ih (step_lookup_doctorKey w c h)

/-! Characterizations of doctor registration. -/

theorem getCallParams_ok_fst {P : Type} (st : Stub) (p z : P) :
    (getCallParams st (.ok p) z).1 = p := by
  unfold getCallParams
  rcases hg : getOwnerCN st with ⟨od, oe⟩
  cases oe <;> simp [hg]

/-- A first `RegisterDoctor` on a working store records the caller CommonName
bytes under the doctor key. -/
theorem registerDoctor_fresh (w : World) (id : Identity) (p : DoctorParams)
    (hfresh : lookupKV w (doctorKey p.Doctor) = none) :
    MedicalRecordChaincode.registerDoctor ⟨w, id, [], []⟩ (.ok p)
      = (.success none,
          ⟨(doctorKey p.Doctor, strBytes id.cn) :: w, id, [], []⟩) := by
  unfold MedicalRecordChaincode.registerDoctor AccessControl.registerDoctor
    getCallParams getOwnerCN Stub.getState Stub.putState callerCN
  simp [hfresh]

/-- A `RegisterDoctor` for an already-bound doctor name fails with the
Already registered error and leaves the stub untouched (whoever calls it and
whatever the owner read yields). -/
theorem registerDoctor_existing (st : Stub) (p : DoctorParams) (bs : Bytes)
    (hfg : doctorKey p.Doctor ∉ st.failGet)
    (hb : lookupKV st.state (doctorKey p.Doctor) = some bs) :
    MedicalRecordChaincode.registerDoctor st (.ok p)
      = (.error "Already registered", st) := by
  unfold MedicalRecordChaincode.registerDoctor AccessControl.registerDoctor
  dsimp only
  rw [getCallParams_ok_fst]
  unfold Stub.getState
  simp [hfg, hb]

/-! Claim theorems. -/

/-- Claim C8 (confirmed): the first successful RegisterDoctor for a doctor
name stores the registering caller binding; every later RegisterDoctor naming
the same doctor — by any caller, on any ledger holding a binding — fails with
the Already registered error and leaves the stored bytes unchanged, and the
first binding survives every subsequent operation, so at most one distinct
binding is ever stored under the doctor key. -/
theorem registerDoctor_first_wins
    (d : String) (w : World) (c : OpCall) (p : DoctorParams)
    (hop : c.op = .registerDoctorOp (.ok p)) (hd : p.Doctor = d)
    (hfg : c.failGet = []) (hfp : c.failPut = [])
    (hfresh : lookupKV w (doctorKey d) = none) :
    ((stepResp w c).1 = .success none)
    ∧ (lookupKV (step w c) (doctorKey d) = some (strBytes c.ident.cn))
    ∧ (∀ ops, lookupKV (run (step w c) ops) (doctorKey d)
        = some (strBytes c.ident.cn))
    ∧ (∀ (w2 : World) (c2 : OpCall) (p2 : DoctorParams) (bs : Bytes),
        c2.op = .registerDoctorOp (.ok p2) → p2.Doctor = d →
        doctorKey d ∉ c2.failGet →
        lookupKV w2 (doctorKey d) = some bs →
        ((stepResp w2 c2).1 = .error "Already registered")
          ∧ lookupKV (step w2 c2) (doctorKey d) = some bs) := by
  subst hd
  have hstub : mkStub w c = ⟨w, c.ident, [], []⟩ := by
    rw [mkStub, hfg, hfp]
  have hresp : stepResp w c
      = (.success none,
          ⟨(doctorKey p.Doctor, strBytes c.ident.cn) :: w, c.ident, [], []⟩) := by
    rw [stepResp]
    rw [hop]
    rw [hstub]
    exact registerDoctor_fresh w c.ident p hfresh
  have hstep : lookupKV (step w c) (doctorKey p.Doctor)
      = some (strBytes c.ident.cn) := by
    rw [step, hresp]
    exact lookupKV_cons_self
  refine ⟨by rw [hresp], hstep, fun ops => run_lookup_doctorKey ops hstep, ?_⟩
  intro w2 c2 p2 bs h1 h2 h3 h4
  have hstub2 : (mkStub w2 c2).state = w2 := rfl
  have hfg2 : doctorKey p2.Doctor ∉ (mkStub w2 c2).failGet := by
    rw [h2]
    exact h3
  have hb2 : lookupKV (mkStub w2 c2).state (doctorKey p2.Doctor) = some bs := by
    rw [hstub2, h2]
    exact h4
  have hresp2 : stepResp w2 c2 = (.error "Already registered", mkStub w2 c2) := by
    rw [stepResp]
    rw [h1]
    exact registerDoctor_existing (mkStub w2 c2) p2 bs hfg2 hb2
  exact ⟨by rw [hresp2], by rw [step, hresp2]; exact h4⟩

/-- A concrete first registration call for the C8 witness. -/
def regWCall : OpCall := ⟨⟨[7], "dr.w"⟩, [], [], .registerDoctorOp (.ok ⟨"dr.w"⟩)⟩

/-- Witness for C8 at the concrete doctor dr.w registering on the empty
ledger. -/
theorem registerDoctor_first_wins_witness :
    ((stepResp [] regWCall).1 = .success none)
    ∧ (lookupKV (step [] regWCall) (doctorKey "dr.w") = some (strBytes "dr.w"))
    ∧ (∀ ops, lookupKV (run (step [] regWCall) ops) (doctorKey "dr.w")
        = some (strBytes "dr.w"))
    ∧ (∀ (w2 : World) (c2 : OpCall) (p2 : DoctorParams) (bs : Bytes),
        c2.op = .registerDoctorOp (.ok p2) → p2.Doctor = "dr.w" →
        doctorKey "dr.w" ∉ c2.failGet →
        lookupKV w2 (doctorKey "dr.w") = some bs →
        ((stepResp w2 c2).1 = .error "Already registered")
          ∧ lookupKV (step w2 c2) (doctorKey "dr.w") = some bs) :=
  registerDoctor_first_wins "dr.w" [] regWCall ⟨"dr.w"⟩ rfl rfl rfl rfl rfl

/-- Claim C2 (amended: the stored bytes are the UTF-8 bytes of the registering
caller CommonName — not the raw host-delivered certificate bytes): once
RegisterDoctor succeeds for a doctor name, the bytes stored under its
DoctorPublicKey key are the registering caller CommonName bytes, they survive
every subsequent operation unchanged, and a later checkAccess for that doctor
returns without error only when the caller byte-sequence equals the stored
bytes — any other byte-sequence is rejected with the Invalid caller
certificate error. -/
theorem doctor_binding_pins_caller_cn
    (d : String) (w : World) (c : OpCall) (p : DoctorParams)
    (hop : c.op = .registerDoctorOp (.ok p)) (hd : p.Doctor = d)
    (hfg : c.failGet = []) (hfp : c.failPut = [])
    (hfresh : lookupKV w (doctorKey d) = none) :
    (lookupKV (step w c) (doctorKey d) = some (strBytes c.ident.cn))
    ∧ (∀ ops, lookupKV (run (step w c) ops) (doctorKey d)
        = some (strBytes c.ident.cn))
    ∧ (∀ (st : Stub) (pid : Nat) (caller : Bytes),
        lookupKV st.state (doctorKey d) = some (strBytes c.ident.cn) →
        doctorKey d ∉ st.failGet →
        (((AccessControl.checkAccess st pid d caller).2 = none →
            caller = strBytes c.ident.cn)
          ∧ (caller ≠ strBytes c.ident.cn →
              AccessControl.checkAccess st pid d caller
                = (0, some "Invalid caller certificate")))) := by
  subst hd
  have hstub : mkStub w c = ⟨w, c.ident, [], []⟩ := by
    rw [mkStub, hfg, hfp]
  have hresp : stepResp w c
      = (.success none,
          ⟨(doctorKey p.Doctor, strBytes c.ident.cn) :: w, c.ident, [], []⟩) := by
    rw [stepResp]
    rw [hop]
    rw [hstub]
    exact registerDoctor_fresh w c.ident p hfresh
  have hstep : lookupKV (step w c) (doctorKey p.Doctor)
      = some (strBytes c.ident.cn) := by
    rw [step, hresp]
    exact lookupKV_cons_self
  refine ⟨hstep, fun ops => run_lookup_doctorKey ops hstep, ?_⟩
  intro st pid caller hb hfg2
  unfold AccessControl.checkAccess Stub.getState
  by_cases hc : strBytes c.ident.cn = caller
  · subst hc
    simp [hfg2, hb]
  · constructor
    · intro h2
      exfalso
      simp [hfg2, hb, hc] at h2
    · intro _
      simp [hfg2, hb, hc]

/-- A concrete registration call for the C2 counterexample and witness: the
host delivers raw certificate bytes [1, 2, 3] whose extracted CommonName is
drA (CommonName bytes [100, 114, 65]). -/
def regVCall : OpCall := ⟨⟨[1, 2, 3], "drA"⟩, [], [], .registerDoctorOp (.ok ⟨"drA"⟩)⟩

/-- Claim C2 counterexample: after registering doctor drA from a creator
whose raw host-delivered certificate bytes are [1, 2, 3], the bytes stored
under the doctor key are the CommonName bytes [100, 114, 65] — not the
claimed raw certificate bytes of the registering caller. -/
theorem doctor_binding_is_not_raw_cert :
    (regVCall.ident.rawCert = [1, 2, 3])
    ∧ (lookupKV (step [] regVCall) (doctorKey "drA") = some [100, 114, 65])
    ∧ ([100, 114, 65] : Bytes) ≠ [1, 2, 3] := by
  decide

/-- Witness for the amended C2 at the concrete doctor drA. -/
theorem doctor_binding_pins_caller_cn_witness :
    (lookupKV (step [] regVCall) (doctorKey "drA") = some (strBytes "drA"))
    ∧ (∀ ops, lookupKV (run (step [] regVCall) ops) (doctorKey "drA")
        = some (strBytes "drA"))
    ∧ (∀ (st : Stub) (pid : Nat) (caller : Bytes),
        lookupKV st.state (doctorKey "drA") = some (strBytes "drA") →
        doctorKey "drA" ∉ st.failGet →
        (((AccessControl.checkAccess st pid "drA" caller).2 = none →
            caller = strBytes "drA")
          ∧ (caller ≠ strBytes "drA" →
              AccessControl.checkAccess st pid "drA" caller
                = (0, some "Invalid caller certificate")))) :=
  doctor_binding_pins_caller_cn "drA" [] regVCall ⟨"drA"⟩ rfl rfl rfl rfl rfl

/-- Claim C1 (refuted by the code): starting from an empty ledger, doctor
dr.a registers with certificate bytes [10, 20] and `setAccess(1, dr.a, 2)`
succeeds (returns true with no error), yet `checkAccess(1, dr.a, [10, 20])`
with the very bytes bound at registration returns level 0 with no error —
not the granted level 2 — because it reads the level from the
Metadata/"doctor" key that `setAccess` never writes.  A mismatching caller
byte-sequence is rejected as Invalid caller certificate, as the claim
states. -/
theorem checkAccess_drops_granted_level :
    ((AccessControl.setAccess
        (AccessControl.registerDoctor ⟨[], ⟨[], ""⟩, [], []⟩ "dr.a" [10, 20]).2
        1 "dr.a" 2).1 = (true, none))
    ∧ (AccessControl.checkAccess
        (AccessControl.setAccess
          (AccessControl.registerDoctor ⟨[], ⟨[], ""⟩, [], []⟩ "dr.a" [10, 20]).2
          1 "dr.a" 2).2 1 "dr.a" [10, 20] = (0, none))
    ∧ (AccessControl.checkAccess
        (AccessControl.setAccess
          (AccessControl.registerDoctor ⟨[], ⟨[], ""⟩, [], []⟩ "dr.a" [10, 20]).2
          1 "dr.a" 2).2 1 "dr.a" [99] = (0, some "Invalid caller certificate")) := by
  decide

/-- The doctor identity of specification scenario 3: CommonName dr.a. -/
def drAIdent : Identity := ⟨[1], "dr.a"⟩

/-- The ledger of specification scenario 3: doctor dr.a registered by its own
caller, Full access granted on patient 1 via SetDoctorAccess, visit 1 opened
via PatientVisit. -/
def scenario3World : World :=
  run [] [⟨drAIdent, [], [], .registerDoctorOp (.ok ⟨"dr.a"⟩)⟩,
    ⟨drAIdent, [], [], .setDocAccessOp (.ok ⟨1, "dr.a", 2⟩)⟩,
    ⟨drAIdent, [], [], .patientVisitOp (.ok ⟨1, "dr.a", "cough"⟩)⟩]

/-- Claim C3 (refuted by the code): in specification scenario 3, visit 1 for
patient 1 exists on the ledger, yet `SetDiagnosis` submitted by the very
doctor holding the freshly granted Full access is refused with the
access-denied error (the granted level is invisible to `checkAccess`), so the
update claimed to succeed never happens, and `GetMedicalRecords` by the same
doctor is refused the same way instead of returning the history. -/
theorem setDiagnosis_denied_despite_full_access :
    (lookupKV scenario3World (visitKey 1 1)
        = some (jsonMarshalVisit ⟨1, 1, "dr.a", "cough", "", ""⟩))
    ∧ ((stepResp scenario3World
          ⟨drAIdent, [], [], .setDiagnosisOp (.ok ⟨1, 1, "flu"⟩)⟩).1
        = .error "Caller does not have access to patient data.")
    ∧ ((stepResp scenario3World
          ⟨drAIdent, [], [], .getMedicalRecordsOp (.ok ⟨1, "dr.a"⟩)⟩).1
        = .error "Caller does not have access to patient info.") := by
  decide

/-- Claim C6 (refuted by the code): a `SetDiagnosis` or `SetPerscription`
naming a (patient, visit) pair with no stored visit record does write
nothing, but it fails with the access-denied message — not NotFound — because
the source discards the failed visit fetch and runs the access check on the
zero-valued visit (whose doctor name is empty and unregistered). -/
theorem missing_visit_reports_access_error :
    (MedicalRecordChaincode.setDiagnosis ⟨[], ⟨[], "dr.a"⟩, [], []⟩ (.ok ⟨5, 1, "x"⟩)
        = (.error "Caller does not have access to patient data.",
            ⟨[], ⟨[], "dr.a"⟩, [], []⟩))
    ∧ (MedicalRecordChaincode.setPerscription ⟨[], ⟨[], "dr.a"⟩, [], []⟩
          (.ok ⟨5, 1, "x"⟩)
        = (.error "Caller does not have access to patient data.",
            ⟨[], ⟨[], "dr.a"⟩, [], []⟩)) := by
  decide

/-- Claim C7 (refuted by the code): a `RegisterPatient` whose counter read,
record write and counter write all report store errors still replies Success
with the marshalled patient — the store errors are discarded, nothing is
persisted, and no StoreError reaches the caller; the JSON-parse-failure half
of the claim does hold (InvalidArgs as the stable parse-error message). -/
theorem registerPatient_swallows_store_errors :
    (MedicalRecordChaincode.registerPatient
        ⟨[], ⟨[], "who"⟩, [patientCountKey], [patientCountKey, patientKey 1]⟩
        (.ok ⟨"J", "Doe", 1, 19700101, "x"⟩)
      = (.success (some (jsonMarshalPatient ⟨1, "J", "Doe", 1, 19700101, "x"⟩)),
          ⟨[], ⟨[], "who"⟩, [patientCountKey], [patientCountKey, patientKey 1]⟩))
    ∧ ((MedicalRecordChaincode.registerPatient ⟨[], ⟨[], "who"⟩, [], []⟩
          (.error "bad json")).1 = .error "Error parsing transfer json") := by
  decide

/-- A counter read on a key the store does not fail on reports no error. -/
theorem getValue_no_fail (st : Stub) {k : Bytes} (h : k ∉ st.failGet) :
    (MedicalRecordChaincode.getValue st k).2 = none := by
  unfold MedicalRecordChaincode.getValue Stub.getState
  simp only [h, if_neg, ite_false]
  cases lookupKV st.state k <;> simp

/-- Claim C9 (confirmed): on a store that does not fail on the access key,
`setAccess(p, d, L)` is a pure no-op returning false when the stored level
already equals L, and otherwise records the new level under the access key
(as an 8-byte little-endian counter) and returns true. -/
theorem setAccess_noop_on_equal_level
    (st : Stub) (pid : Nat) (d : String) (L : Nat)
    (hfg : accessKey d pid ∉ st.failGet) (hfp : accessKey d pid ∉ st.failPut) :
    ((MedicalRecordChaincode.getValue st (accessKey d pid)).1 = L →
        AccessControl.setAccess st pid d L = ((false, none), st))
    ∧ ((MedicalRecordChaincode.getValue st (accessKey d pid)).1 ≠ L →
        AccessControl.setAccess st pid d L
          = ((true, none),
              ⟨(accessKey d pid, toLE8 L) :: st.state, st.creator,
                st.failGet, st.failPut⟩)) := by
  have hno := getValue_no_fail st hfg
  constructor
  · intro hcur
    unfold AccessControl.setAccess
    simp [hno, hcur]
  · intro hne
    unfold AccessControl.setAccess
    simp only [hno, Option.isSome_none, Bool.false_or, hne, decide_eq_true_eq,
      if_neg, ite_false]
    unfold MedicalRecordChaincode.setValue Stub.putState
    simp [hfp]

/-- Witness for C9: on a ledger already holding level 2 for (dr.v, patient 1),
requesting level 2 again is a no-op returning false, and on the empty ledger
(implicit level 0) requesting level 2 writes it and returns true. -/
theorem setAccess_noop_on_equal_level_witness :
    (((MedicalRecordChaincode.getValue
          ⟨[(accessKey "dr.v" 1, toLE8 2)], ⟨[], ""⟩, [], []⟩
          (accessKey "dr.v" 1)).1 = 2 →
        AccessControl.setAccess ⟨[(accessKey "dr.v" 1, toLE8 2)], ⟨[], ""⟩, [], []⟩
            1 "dr.v" 2
          = ((false, none), ⟨[(accessKey "dr.v" 1, toLE8 2)], ⟨[], ""⟩, [], []⟩))
      ∧ ((MedicalRecordChaincode.getValue
            ⟨[(accessKey "dr.v" 1, toLE8 2)], ⟨[], ""⟩, [], []⟩
            (accessKey "dr.v" 1)).1 ≠ 2 →
          AccessControl.setAccess ⟨[(accessKey "dr.v" 1, toLE8 2)], ⟨[], ""⟩, [], []⟩
              1 "dr.v" 2
            = ((true, none),
                ⟨(accessKey "dr.v" 1, toLE8 2) :: [(accessKey "dr.v" 1, toLE8 2)],
                  ⟨[], ""⟩, [], []⟩)))
    ∧ (((MedicalRecordChaincode.getValue ⟨[], ⟨[], ""⟩, [], []⟩
          (accessKey "dr.v" 1)).1 = 2 →
        AccessControl.setAccess ⟨[], ⟨[], ""⟩, [], []⟩ 1 "dr.v" 2
          = ((false, none), ⟨[], ⟨[], ""⟩, [], []⟩))
      ∧ ((MedicalRecordChaincode.getValue ⟨[], ⟨[], ""⟩, [], []⟩
            (accessKey "dr.v" 1)).1 ≠ 2 →
          AccessControl.setAccess ⟨[], ⟨[], ""⟩, [], []⟩ 1 "dr.v" 2
            = ((true, none),
                ⟨(accessKey "dr.v" 1, toLE8 2) :: [], ⟨[], ""⟩, [], []⟩))) :=
  ⟨setAccess_noop_on_equal_level ⟨[(accessKey "dr.v" 1, toLE8 2)], ⟨[], ""⟩, [], []⟩
      1 "dr.v" 2 (by decide) (by decide),
    setAccess_noop_on_equal_level ⟨[], ⟨[], ""⟩, [], []⟩ 1 "dr.v" 2
      (by decide) (by decide)⟩

/-- Whenever the doctor is unregistered, the caller bytes mismatch, or the
pinned-certificate read fails, `checkAccess` reports level 0. -/
theorem checkAccess_fst_zero (st : Stub) (pid : Nat) (d : String) (caller : Bytes)
    (h : (lookupKV st.state (doctorKey d) = none ∧ doctorKey d ∉ st.failGet)
       ∨ (∃ bs, lookupKV st.state (doctorKey d) = some bs ∧ bs ≠ caller
            ∧ doctorKey d ∉ st.failGet)
       ∨ doctorKey d ∈ st.failGet) :
    (AccessControl.checkAccess st pid d caller).1 = 0 := by
  unfold AccessControl.checkAccess Stub.getState
  rcases h with ⟨h1, h2⟩ | ⟨bs, h1, h2, h3⟩ | h1
  · simp [h1, h2]
  · simp [h1, h2, h3]
  · simp [h1]

/-- Claim C10 (confirmed): a GetPatient whose access check fails — doctor
name unregistered, caller certificate bytes different from the pinned bytes,
or a store read error on the pinned-certificate key — always produces the
single access-denied error reply with the ledger untouched; the distinct
NotRegistered and InvalidCaller conditions are invisible to the caller
because the handler discards the checkAccess error and only tests the level
against 0. -/
theorem getPatientById_denials_indistinct
    (st : Stub) (p : PatientIDParams)
    (howner : ownerKey ∉ st.failGet)
    (h : (lookupKV st.state (doctorKey p.Doctor) = none
            ∧ doctorKey p.Doctor ∉ st.failGet)
       ∨ (∃ bs, lookupKV st.state (doctorKey p.Doctor) = some bs
            ∧ bs ≠ strBytes st.creator.cn ∧ doctorKey p.Doctor ∉ st.failGet)
       ∨ doctorKey p.Doctor ∈ st.failGet) :
    MedicalRecordChaincode.getPatientById st (.ok p)
      = (.error "Caller does not have access to patient info.", st) := by
  have hz := checkAccess_fst_zero st p.PatientID p.Doctor (strBytes st.creator.cn) h
  unfold MedicalRecordChaincode.getPatientById getCallParams getOwnerCN callerCN
  have hso : st.getState ownerKey = (lookupKV st.state ownerKey, none) := by
    unfold Stub.getState
    simp [howner]
  rw [hso]
  dsimp only
  simp [hz]

/-- Witness for C10: on the empty ledger every doctor is unregistered, and
GetPatient for patient 1 and doctor d is denied with the single message. -/
theorem getPatientById_denials_indistinct_witness :
    MedicalRecordChaincode.getPatientById ⟨[], ⟨[], "x"⟩, [], []⟩ (.ok ⟨1, "d"⟩)
      = (.error "Caller does not have access to patient info.",
          ⟨[], ⟨[], "x"⟩, [], []⟩) :=
  getPatientById_denials_indistinct ⟨[], ⟨[], "x"⟩, [], []⟩ ⟨1, "d"⟩ (by decide)
    (Or.inl ⟨rfl, by decide⟩)

/-! Claim C5: RegisterPatient sequences. -/

/-- One RegisterPatient invocation by the given caller on a working store. -/
def regCall (pi : PatientInfoParams × Identity) : OpCall :=
  ⟨pi.2, [], [], .registerPatientOp (.ok pi.1)⟩

/-- The ledger after a sequence of RegisterPatient invocations. -/
def runRegs (w : World) (l : List (PatientInfoParams × Identity)) : World :=
  run w (l.map regCall)

/-- The counter value a working store reports at a key: 0 when absent,
otherwise the little-endian reading of the stored bytes. -/
def counterAt (w : World) (k : Bytes) : Nat :=
  match lookupKV w k with
  | none => 0
  | some bs => fromLE8 bs

theorem getValue_eq_counterAt (w : World) (id : Identity) (fp : List Bytes)
    (k : Bytes) :
    MedicalRecordChaincode.getValue ⟨w, id, [], fp⟩ k = (counterAt w k, none) := by
  unfold MedicalRecordChaincode.getValue Stub.getState counterAt
  cases lookupKV w k <;> simp

/-- Fully evaluated form of one RegisterPatient invocation on a working
store: the reply carries the new record whose id is the incremented counter,
and the ledger gains the record under the post-increment patient key followed
by the new counter value. -/
theorem registerPatient_step (w : World) (id : Identity) (p : PatientInfoParams) :
    stepResp w (regCall (p, id))
      = (.success (some (jsonMarshalPatient
            ⟨(counterAt w patientCountKey + 1) % uint64Mod, p.FirstName,
              p.LastName, p.Gender, p.BirthDate, p.Phone⟩)),
          ⟨(patientCountKey, toLE8 ((counterAt w patientCountKey + 1) % uint64Mod))
              :: (patientKey ((counterAt w patientCountKey + 1) % uint64Mod),
                  jsonMarshalPatient
                    ⟨(counterAt w patientCountKey + 1) % uint64Mod, p.FirstName,
                      p.LastName, p.Gender, p.BirthDate, p.Phone⟩)
              :: w,
            id, [], []⟩) := by
  unfold stepResp regCall mkStub
  unfold MedicalRecordChaincode.registerPatient getCallParams getOwnerCN
    callerCN
  dsimp only
  rw [show (⟨w, id, [], []⟩ : Stub).getState ownerKey
      = (lookupKV w ownerKey, none) from by unfold Stub.getState; simp]
  dsimp only
  rw [getValue_eq_counterAt]
  unfold MedicalRecordChaincode.setPatient MedicalRecordChaincode.setValue
    Stub.putState
  simp

theorem runRegs_invariant (l : List (PatientInfoParams × Identity))
    (w : World) (n : Nat)
    (hc : counterAt w patientCountKey = n)
    (hk : ∀ i, 1 ≤ i → i ≤ n →
        ∃ q : PatientInfo, lookupKV w (patientKey i) = some (jsonMarshalPatient q))
    (hlen : n + l.length < uint64Mod) :
    counterAt (runRegs w l) patientCountKey = n + l.length
    ∧ ∀ i, 1 ≤ i → i ≤ n + l.length →
        ∃ q : PatientInfo,
          lookupKV (runRegs w l) (patientKey i) = some (jsonMarshalPatient q) := by
  induction l generalizing w n with
  | nil => exact ⟨hc, fun i h1 h2 => hk i h1 h2⟩
  | cons x xs ih =>
      have hn1 : (n + 1) % uint64Mod = n + 1 := by
        apply Nat.mod_eq_of_lt
        simp [List.length_cons] at hlen
        omega
      have hstate : step w (regCall x)
          = (patientCountKey, toLE8 (n + 1))
              :: (patientKey (n + 1),
                  jsonMarshalPatient
                    ⟨n + 1, x.1.FirstName, x.1.LastName, x.1.Gender,
                      x.1.BirthDate, x.1.Phone⟩)
              :: w := by
        rw [step, registerPatient_step w x.2 x.1, hc, hn1]
      have hc2 : counterAt (step w (regCall x)) patientCountKey = n + 1 := by
        rw [hstate]
        unfold counterAt
        rw [lookupKV_cons_self]
        dsimp only
        rw [fromLE8_toLE8]
        simp [List.length_cons] at hlen
        have : n + 1 < 2 ^ 64 := by
          have h64 : uint64Mod = 2 ^ 64 := rfl
          omega
        exact Nat.mod_eq_of_lt this
      have hk2 : ∀ i, 1 ≤ i → i ≤ n + 1 →
          ∃ q : PatientInfo,
            lookupKV (step w (regCall x)) (patientKey i)
              = some (jsonMarshalPatient q) := by
        intro i h1 h2
        rw [hstate]
        rw [lookupKV_cons_ne (patientCountKey_ne_patientKey i)]
        by_cases hkey : patientKey (n + 1) = patientKey i
        · rw [hkey]
          exact ⟨_, lookupKV_cons_self⟩
        · rw [lookupKV_cons_ne hkey]
          apply hk i h1
          rcases Nat.lt_or_ge i (n + 1) with hlt | hge
          · omega
          · exfalso
            exact hkey (by rw [Nat.le_antisymm h2 hge])
      have hrw : runRegs w (x :: xs) = runRegs (step w (regCall x)) xs := rfl
      rw [hrw]
      have hlen2 : (n + 1) + xs.length < uint64Mod := by
        simp [List.length_cons] at hlen
        omega
      have := ih (step w (regCall x)) (n + 1) hc2 hk2 hlen2
      rw [List.length_cons]
      exact ⟨by rw [this.1]; omega, fun i h1 h2 => this.2 i h1 (by omega)⟩

/-- Claim C5 (confirmed): a sequence of n RegisterPatient calls from the
empty ledger — every one of which succeeds — leaves the patient counter at n
with a marshalled patient record stored under the patient key of every id in
[1, n]; and each single call replies Success, increments the counter by one
(modulo u64) and stores the new record under the post-increment id. -/
theorem registerPatient_sequence
    (l : List (PatientInfoParams × Identity)) (hlen : l.length < uint64Mod) :
    (counterAt (runRegs [] l) patientCountKey = l.length)
    ∧ (∀ i, 1 ≤ i → i ≤ l.length →
        ∃ q : PatientInfo,
          lookupKV (runRegs [] l) (patientKey i) = some (jsonMarshalPatient q))
    ∧ (∀ (w : World) (id : Identity) (p : PatientInfoParams),
        (stepResp w (regCall (p, id))).1
            = .success (some (jsonMarshalPatient
                ⟨(counterAt w patientCountKey + 1) % uint64Mod, p.FirstName,
                  p.LastName, p.Gender, p.BirthDate, p.Phone⟩))
        ∧ counterAt (step w (regCall (p, id))) patientCountKey
            = (counterAt w patientCountKey + 1) % uint64Mod
        ∧ lookupKV (step w (regCall (p, id)))
              (patientKey ((counterAt w patientCountKey + 1) % uint64Mod))
            = some (jsonMarshalPatient
                ⟨(counterAt w patientCountKey + 1) % uint64Mod, p.FirstName,
                  p.LastName, p.Gender, p.BirthDate, p.Phone⟩)) := by
  have hmain := runRegs_invariant l [] 0 rfl (by intro i h1 h2; omega)
    (by simpa using hlen)
  refine ⟨by simpa using hmain.1, fun i h1 h2 => hmain.2 i h1 (by simpa using h2), ?_⟩
  intro w id p
  have hstep := registerPatient_step w id p
  refine ⟨by rw [stepResp] at hstep ⊢; rw [hstep], ?_, ?_⟩
  · rw [step, hstep]
    unfold counterAt
    rw [lookupKV_cons_self]
    dsimp only
    rw [fromLE8_toLE8]
    have h64 : uint64Mod = 2 ^ 64 := rfl
    rw [h64]
    exact Nat.mod_mod_of_dvd _ dvd_rfl
  · rw [step, hstep]
    rw [lookupKV_cons_ne (patientCountKey_ne_patientKey _)]
    exact lookupKV_cons_self

/-- Witness for C5: two concrete registrations from the empty ledger leave
the counter at 2 with records under patient keys 1 and 2. -/
theorem registerPatient_sequence_witness :
    (counterAt (runRegs [] [(⟨"A", "B", 1, 2, "p"⟩, ⟨[], "a"⟩),
        (⟨"C", "D", 2, 3, "q"⟩, ⟨[], "b"⟩)]) patientCountKey = 2)
    ∧ (∀ i, 1 ≤ i → i ≤ 2 →
        ∃ q : PatientInfo,
          lookupKV (runRegs [] [(⟨"A", "B", 1, 2, "p"⟩, ⟨[], "a"⟩),
              (⟨"C", "D", 2, 3, "q"⟩, ⟨[], "b"⟩)]) (patientKey i)
            = some (jsonMarshalPatient q)) := by
  have h := registerPatient_sequence
    [(⟨"A", "B", 1, 2, "p"⟩, ⟨[], "a"⟩), (⟨"C", "D", 2, 3, "q"⟩, ⟨[], "b"⟩)]
    (by decide)
  exact ⟨h.1, h.2.1⟩

/-! Claim C4: rendering of numeric key segments. -/

theorem utf8EncodeNat_inj {m n : Nat} (hm : m < 0xD800) (hn : n < 0xD800)
    (h : utf8EncodeNat m = utf8EncodeNat n) : m = n := by
  unfold utf8EncodeNat at h
  split_ifs at h <;> simp_all <;> omega

theorem goStringOfUInt64_below_surrogates (m : Nat) (hm : m < 0xD800) :
    goStringOfUInt64 m = utf8EncodeNat m := by
  unfold goStringOfUInt64 goRuneValid
  simp [hm]

theorem createCompositeKey_one_attr (P : String) (a : Bytes) :
    createCompositeKey P [a]
      = (([0] ++ strBytes P) ++ [0]) ++ (a ++ [0]) := by
  unfold createCompositeKey
  simp

theorem createCompositeKey_two_attr (P : String) (a b : Bytes) :
    createCompositeKey P [a, b]
      = ((([0] ++ strBytes P) ++ [0]) ++ (a ++ [0])) ++ (b ++ [0]) := by
  unfold createCompositeKey
  simp

theorem patientKey_inj {m n : Nat} (hm : m < 0xD800) (hn : n < 0xD800)
    (h : patientKey m = patientKey n) : m = n := by
  unfold patientKey at h
  rw [createCompositeKey_one_attr, createCompositeKey_one_attr] at h
  have h2 := List.append_cancel_left h
  have h3 := List.append_cancel_right h2
  rw [goStringOfUInt64_below_surrogates m hm,
    goStringOfUInt64_below_surrogates n hn] at h3
  exact utf8EncodeNat_inj hm hn h3

theorem visitKey_inj {p m n : Nat} (hm : m < 0xD800) (hn : n < 0xD800)
    (h : visitKey p m = visitKey p n) : m = n := by
  unfold visitKey at h
  rw [createCompositeKey_two_attr, createCompositeKey_two_attr] at h
  have h2 := List.append_cancel_left h
  have h3 := List.append_cancel_right h2
  rw [goStringOfUInt64_below_surrogates m hm,
    goStringOfUInt64_below_surrogates n hn] at h3
  exact utf8EncodeNat_inj hm hn h3

theorem visitCountKey_inj {m n : Nat} (hm : m < 0xD800) (hn : n < 0xD800)
    (h : visitCountKey m = visitCountKey n) : m = n := by
  unfold visitCountKey at h
  rw [createCompositeKey_one_attr, createCompositeKey_one_attr] at h
  have h2 := List.append_cancel_left h
  have h3 := List.append_cancel_right h2
  rw [goStringOfUInt64_below_surrogates m hm,
    goStringOfUInt64_below_surrogates n hn] at h3
  exact utf8EncodeNat_inj hm hn h3

/-- Claim C4 counterexample: the records engine renders the u64 id 1 as the
single byte [1] (Go string conversion) while the access-control component
renders it as the decimal text byte [49], neither being the 8-byte
little-endian form [1,0,0,0,0,0,0,0] the claim asserts; the corresponding
keys differ from their little-endian counterparts, and the records-engine
rendering even conflates the distinct identifiers 0xD800 and 0xD801. -/
theorem key_segment_not_little_endian :
    (goStringOfUInt64 1 = [1])
    ∧ (strBytes (toString 1) = [49])
    ∧ (toLE8 1 = [1, 0, 0, 0, 0, 0, 0, 0])
    ∧ (goStringOfUInt64 1 ≠ toLE8 1)
    ∧ (strBytes (toString 1) ≠ toLE8 1)
    ∧ (goStringOfUInt64 1 ≠ strBytes (toString 1))
    ∧ (patientKey 1 ≠ createCompositeKey PatientInfoKey [toLE8 1])
    ∧ (accessKey "d" 1 ≠ createCompositeKey DoctorAccessKey [strBytes "d", toLE8 1])
    ∧ (goStringOfUInt64 0xD800 = goStringOfUInt64 0xD801) := by
  decide

/-- Claim C4 (amended): numeric key segments are rendered by the Go
string(u64) conversion in the records engine (patient keys, visit keys,
per-patient visit counter keys — the UTF-8 bytes of the code point, with
U+FFFD replacing invalid values) and as decimal text in the access-control
component, not as the 8-byte little-endian form; within the records engine
the rendering is shared by all key families and distinct identifiers below
the surrogate range 0xD800 yield distinct keys. -/
theorem key_segment_rendering (m n pid : Nat) (hm : m < 0xD800) (hn : n < 0xD800) :
    (patientKey m = createCompositeKey PatientInfoKey [utf8EncodeNat m])
    ∧ (visitKey pid m
        = createCompositeKey MedVisitKey [goStringOfUInt64 pid, utf8EncodeNat m])
    ∧ (visitCountKey m = createCompositeKey VisitInfoCountKey [utf8EncodeNat m])
    ∧ (accessKey "d" m
        = createCompositeKey DoctorAccessKey [strBytes "d", strBytes (toString m)])
    ∧ (patientKey m = patientKey n → m = n)
    ∧ (visitKey pid m = visitKey pid n → m = n)
    ∧ (visitCountKey m = visitCountKey n → m = n) := by
  refine ⟨?_, ?_, ?_, rfl, fun h => patientKey_inj hm hn h,
    fun h => visitKey_inj hm hn h, fun h => visitCountKey_inj hm hn h⟩
  · unfold patientKey
    rw [goStringOfUInt64_below_surrogates m hm]
  · unfold visitKey
    rw [goStringOfUInt64_below_surrogates m hm]
  · unfold visitCountKey
    rw [goStringOfUInt64_below_surrogates m hm]

/-- Witness for the amended C4 at identifiers 1, 2 and patient 3. -/
theorem key_segment_rendering_witness :
    (patientKey 1 = createCompositeKey PatientInfoKey [utf8EncodeNat 1])
    ∧ (visitKey 3 1
        = createCompositeKey MedVisitKey [goStringOfUInt64 3, utf8EncodeNat 1])
    ∧ (visitCountKey 1 = createCompositeKey VisitInfoCountKey [utf8EncodeNat 1])
    ∧ (accessKey "d" 1
        = createCompositeKey DoctorAccessKey [strBytes "d", strBytes (toString 1)])
    ∧ (patientKey 1 = patientKey 2 → 1 = 2)
    ∧ (visitKey 3 1 = visitKey 3 2 → 1 = 2)
    ∧ (visitCountKey 1 = visitCountKey 2 → 1 = 2) :=
  key_segment_rendering 1 2 3 (by decide) (by decide)

end MedCh
